import Mathlib

/-!
Shallow embedding of the LXD-Nomad CLI dispatcher (`nomad/cli/main.py`) and of the
collaborators its behaviour depends on, together with theorems settling the spec's
claims about container-set resolution, the destroy confirmation policy, error
dispatching, the help action and the memoized project accessor.
-/

set_option autoImplicit false

namespace Nomad

/-- A container handle: its declared name and the live state queried from the
hypervisor (`exists` and whether it is running).  Mirrors the attributes of the
container objects returned by `project.get_container_by_name` that `main.py` reads. -/
structure Container where
  name : String
  existsFlag : Bool
  running : Bool
deriving DecidableEq, Repr

/-- The project: the ordered list of containers declared by the configuration,
as exposed by `self.project.containers` in `main.py`. -/
structure Project where
  containers : List Container
deriving DecidableEq, Repr

/-- Resolution failure: a requested name is not declared for the project. -/
inductive ResolutionError where
  | unknownContainer (name : String)
deriving DecidableEq, Repr

/-- Modelled from the spec: `Project.get_container_by_name` lives in
`nomad/project.py`, which is not among the sources; per the spec the registry
lookup returns the handle for a declared name "or fails with NotFound" /
`UnknownContainer(name)`.  The lookup scans the declared containers in order and
returns the first one whose name matches. -/
def get_container_by_name (project : Project) (name : String) : Except ResolutionError Container :=
  match project.containers.find? (fun c => c.name == name) with
  | some c => Except.ok c
  | none => Except.error (ResolutionError.unknownContainer name)

/-- The list comprehension at `main.py:129`:
`containers = [self.project.get_container_by_name(name) for name in container_names]`.
Python evaluates left to right and the first lookup failure propagates as an
exception, so resolution is all-or-nothing. -/
def resolveContainers (project : Project) : List String → Except ResolutionError (List Container)
  | [] => Except.ok []
  | n :: rest =>
    match get_container_by_name project n with
    | Except.error e => Except.error e
    | Except.ok c =>
      match resolveContainers project rest with
      | Except.error e => Except.error e
      | Except.ok cs => Except.ok (c :: cs)

/-- `main.py:128`: `container_names = args.name or [c.name for c in self.project.containers]`.
An empty requested list (Python falsy) defaults to every declared container name
in declaration order. -/
def effectiveNames (project : Project) (argsName : List String) : List String :=
  if argsName.isEmpty then project.containers.map Container.name else argsName

/-- The resolution performed by `Nomad.destroy` at `main.py:128-129`: default the
requested list, then look every name up in the project. -/
def resolve (requested : List String) (project : Project) : Except ResolutionError (List Container) :=
  resolveContainers project (effectiveNames project requested)

/-- Observable behaviour of one `Nomad.destroy` invocation: how many times the
`yesno` confirmation prompt ran, the argument of each `self.project.destroy`
call issued, and the resolution error that escaped, if any. -/
structure DestroyResult where
  prompts : Nat
  destroyCalls : List (List String)
  error : Option ResolutionError
deriving DecidableEq, Repr

/-- `Nomad.destroy` (`main.py:124-148`).  Inputs: the project, `args.name`
(the user's requested names, possibly empty), `args.force`, and the answer the
interactive `yesno` prompt would return if consulted.

The control flow mirrors the source: resolve the names (a failure propagates
before any other effect); compute the existing subset; if the name list is
non-empty and nothing exists, destroy without prompting; otherwise prompt
(unless the name list is empty or `--force` short-circuits the `or`) and destroy
only on force or an affirmative answer.  The destructive call passes `args.name`,
not the expanded `container_names`. -/
def destroy (project : Project) (argsName : List String) (force answer : Bool) : DestroyResult :=
  let container_names := effectiveNames project argsName
  match resolveContainers project container_names with
  | Except.error e => ⟨0, [], some e⟩
  | Except.ok containers =>
    let existing_containers := containers.filter (fun c => c.existsFlag)
    if !container_names.isEmpty && existing_containers.isEmpty then
      ⟨0, [argsName], none⟩
    else
      let prompted := !container_names.isEmpty && !force
      let confirmed := !container_names.isEmpty && (force || answer)
      ⟨if prompted then 1 else 0, if confirmed then [argsName] else [], none⟩

/-- Per-container outcome vocabulary of the spec. -/
inductive Outcome where
  | succeeded
  | skipped (reason : String)
  | failed (err : String)
deriving DecidableEq, Repr

/-- Modelled from the spec: `Project.halt` lives in `nomad/project.py`, which is
not among the sources.  Per the spec, "for each target, if `exists && running`,
stop; otherwise Skipped(\x22not running\x22).  Never errors on an absent
container." -/
def haltOutcome (c : Container) : Outcome :=
  if c.existsFlag && c.running then Outcome.succeeded else Outcome.skipped "not running"

/-- Modelled from the spec: `Project.halt` applies `haltOutcome` to each target,
one outcome per target, never collapsed early. -/
def haltApply (targets : List Container) : List Outcome :=
  targets.map haltOutcome

/-- A domain error of the dispatcher (`CLIError`, `ConfigError`, `NomadException`):
`main.py` only ever reads its `msg` attribute, which may be `None`. -/
structure DomainError where
  msg : Option String
deriving DecidableEq, Repr

/-- What the dispatch wrapper did about errors: which messages it logged via
`logger.error`, and the exit status it forced (`none` means `sys.exit` was not
called and the process continues to a normal exit 0). -/
structure DispatchResult where
  loggedErrors : List String
  exitCode : Option Nat
deriving DecidableEq, Repr

/-- The `try/except` around the dispatch at `main.py:106-112`: a domain error is
logged and the process exits 1 only when its `msg` is not `None`; an error whose
`msg` is `None` is caught and ignored. -/
def dispatchErrors (outcome : Except DomainError Unit) : DispatchResult :=
  match outcome with
  | Except.ok _ => ⟨[], none⟩
  | Except.error e =>
    match e.msg with
    | some m => ⟨[m], some 1⟩
    | none => ⟨[], none⟩

/-- The keys of `self._parsers` in insertion order (`Nomad.__init__`): the
`main` parser plus one parser per registered subcommand. -/
def parserKeys : List String :=
  ["main", "config", "destroy", "halt", "help", "provision", "shell", "status", "up"]

/-- The subcommands registered on the argument parser via `subparsers.add_parser`
(`Nomad.__init__`); `main` is the top-level parser, not a subcommand. -/
def registeredSubcommands : List String :=
  ["config", "destroy", "halt", "help", "provision", "shell", "status", "up"]

/-- Result of the `help` action: either some parser's help text was printed
(identified by its `_parsers` key) or a `CLIError` was raised. -/
inductive HelpResult where
  | printed (key : String)
  | cliError (msg : String)
deriving DecidableEq, Repr

/-- `Nomad.help` (`main.py:153-161`): a missing subcommand trips the `assert`
and prints the main help; otherwise `self._parsers[args.subcommand]` prints its
help, and a `KeyError` (the name is not a key of `_parsers`) becomes
`CLIError('No such command: ...')`. -/
def help (subcommand : Option String) : HelpResult :=
  match subcommand with
  | none => HelpResult.printed "main"
  | some s =>
    if s ∈ parserKeys then HelpResult.printed s
    else HelpResult.cliError ("No such command: " ++ s)

/-- State of a `Nomad` instance relevant to the `project` property: the memoized
`self._project` attribute (absent until first access) and how many times
`get_project()` has run. -/
structure NomadState where
  _project : Option Project
  getProjectCalls : Nat
deriving DecidableEq, Repr

/-- The `project` property (`main.py:179-185`): if `self._project` is not yet
set, call `get_project()` (whose result is the `freshProject` argument) and
store it; return the stored project.  Returns the project together with the
updated instance state. -/
def projectAccessor (freshProject : Project) (s : NomadState) : Project × NomadState :=
  match s._project with
  | some p => (p, s)
  | none => (freshProject, ⟨some freshProject, s.getProjectCalls + 1⟩)

/-! Resolution lemmas shared by the claims about `resolve` and `destroy`. -/

/-- If `name` does not occur among the declared names, the lookup fails with
`unknownContainer name`. -/
theorem get_container_by_name_error {project : Project} {name : String}
    (h : name ∉ project.containers.map Container.name) :
    get_container_by_name project name =
      Except.error (ResolutionError.unknownContainer name) := by
  unfold get_container_by_name
  have hfind : project.containers.find? (fun c => c.name == name) = none := by
    rw [List.find?_eq_none]
    intro c hc
    simp only [beq_iff_eq]
    intro hname
    exact h (hname ▸ List.mem_map_of_mem Container.name hc)
  rw [hfind]

/-- If `name` occurs among the declared names, the lookup succeeds and returns a
declared container carrying that name. -/
theorem get_container_by_name_ok {project : Project} {name : String}
    (h : name ∈ project.containers.map Container.name) :
    ∃ c, get_container_by_name project name = Except.ok c ∧ c.name = name ∧
      c ∈ project.containers := by
  unfold get_container_by_name
  cases hfind : project.containers.find? (fun c => c.name == name) with
  | none =>
    exfalso
    rw [List.find?_eq_none] at hfind
    obtain ⟨c, hc, hname⟩ := List.mem_map.mp h
    exact hfind c hc (by simp [hname])
  | some c =>
    refine ⟨c, rfl, ?_, List.mem_of_find?_eq_some hfind⟩
    have := List.find?_some hfind
    simpa using this

/-- Finding by a declared container's own name in a duplicate-free list returns
exactly that container. -/
theorem find?_name_self : ∀ {l : List Container} {c : Container},
    (l.map Container.name).Nodup → c ∈ l →
      l.find? (fun x => x.name == c.name) = some c
  | [], c, _, hc => absurd hc (List.not_mem_nil c)
  | a :: t, c, hnodup, hc => by
    rcases List.mem_cons.mp hc with hac | hct
    · subst hac
      simp [List.find?]
    · have hnodup' : (t.map Container.name).Nodup := by
        rw [List.map_cons, List.nodup_cons] at hnodup
        exact hnodup.2
      have hname : a.name ≠ c.name := by
        intro h
        have hmem : c.name ∈ t.map Container.name := List.mem_map_of_mem Container.name hct
        rw [List.map_cons, List.nodup_cons] at hnodup
        exact hnodup.1 (h ▸ hmem)
      simp only [List.find?]
      rw [show (a.name == c.name) = false from beq_false_of_ne hname]
      exact find?_name_self hnodup' hct

/-- When the declared names are pairwise distinct, looking up a declared
container's own name returns exactly that container. -/
theorem get_container_by_name_self {project : Project} {c : Container}
    (hnodup : (project.containers.map Container.name).Nodup)
    (hc : c ∈ project.containers) :
    get_container_by_name project c.name = Except.ok c := by
  unfold get_container_by_name
  rw [find?_name_self hnodup hc]

/-- Resolving the declared containers' own names (in order) yields exactly the
declared containers, provided each name resolves to its own handle. -/
theorem resolveContainers_map_name {project : Project} {cs : List Container}
    (h : ∀ c ∈ cs, get_container_by_name project c.name = Except.ok c) :
    resolveContainers project (cs.map Container.name) = Except.ok cs := by
  induction cs with
  | nil => rfl
  | cons c t ih =>
    simp only [List.map_cons, resolveContainers]
    rw [h c (List.mem_cons_self c t), ih (fun x hx => h x (List.mem_cons_of_mem c hx))]

/-- All-names-declared resolution: every requested name resolves, the result's
names are the requested names in the requested order, and every returned handle
is a declared container. -/
theorem resolveContainers_of_subset {project : Project} (ns : List String)
    (h : ∀ n ∈ ns, n ∈ project.containers.map Container.name) :
    ∃ cs, resolveContainers project ns = Except.ok cs ∧
      cs.map Container.name = ns ∧ ∀ c ∈ cs, c ∈ project.containers := by
  induction ns with
  | nil => exact ⟨[], rfl, rfl, fun c hc => absurd hc (List.not_mem_nil c)⟩
  | cons n t ih =>
    obtain ⟨c, hget, hname, hmem⟩ :=
      get_container_by_name_ok (h n (List.mem_cons_self n t))
    obtain ⟨cs, hres, hmap, hall⟩ := ih (fun m hm => h m (List.mem_cons_of_mem n hm))
    refine ⟨c :: cs, ?_, ?_, ?_⟩
    · simp only [resolveContainers]
      rw [hget, hres]
    · rw [List.map_cons, hmap, hname]
    · intro x hx
      rcases List.mem_cons.mp hx with hxc | hxcs
      · exact hxc ▸ hmem
      · exact hall x hxcs

/-- First-failure resolution: if some requested name is undeclared, resolution
fails with `unknownContainer` at the first undeclared name of the list. -/
theorem resolveContainers_first_unknown {project : Project} (ns : List String)
    {n : String} (hn : n ∈ ns) (hbad : n ∉ project.containers.map Container.name) :
    ∃ m, ns.find? (fun x => !((project.containers.map Container.name).contains x)) = some m ∧
      resolveContainers project ns = Except.error (ResolutionError.unknownContainer m) := by
  induction ns with
  | nil => exact absurd hn (List.not_mem_nil n)
  | cons a t ih =>
    by_cases ha : a ∈ project.containers.map Container.name
    · obtain ⟨c, hget, _, _⟩ := get_container_by_name_ok ha
      have hnt : n ∈ t := by
        rcases List.mem_cons.mp hn with hna | hnt
        · exact absurd (hna ▸ ha) hbad
        · exact hnt
      obtain ⟨m, hm, hres⟩ := ih hnt
      refine ⟨m, ?_, ?_⟩
      · rw [List.find?_cons_of_neg _ (by simp [ha]), hm]
      · simp only [resolveContainers]
        rw [hget, hres]
    · refine ⟨a, ?_, ?_⟩
      · rw [List.find?_cons_of_pos]
        simp [ha]
      · simp only [resolveContainers]
        rw [get_container_by_name_error ha]

/-- Concrete fixtures used by witnesses and counterexamples. -/
def webContainer : Container := ⟨"web", true, true⟩

def dbContainer : Container := ⟨"db", false, false⟩

def sampleProject : Project := ⟨[webContainer, dbContainer]⟩

def emptyProject : Project := ⟨[]⟩

theorem isEmpty_false_of_ne_nil {α : Type} {l : List α} (h : l ≠ []) :
    l.isEmpty = false := by
  cases l with
  | nil => exact absurd rfl h
  | cons a t => rfl

theorem effectiveNames_of_ne_nil {project : Project} {R : List String} (h : R ≠ []) :
    effectiveNames project R = R := by
  unfold effectiveNames
  rw [isEmpty_false_of_ne_nil h]
  rfl

/-- C1 (as amended): if the resolved target set is non-empty and at least one
target exists, an unforced invocation whose prompt answer is negative issues no
destructive call; and if the target set is non-empty and no target exists, the
destructive call is issued with zero confirmation prompts. -/
theorem destroy_confirmation_policy (project : Project) (argsName : List String)
    (force answer : Bool) (containers : List Container)
    (hres : resolveContainers project (effectiveNames project argsName) = Except.ok containers)
    (hne : effectiveNames project argsName ≠ []) :
    (containers.filter (fun c => c.existsFlag) ≠ [] → force = false → answer = false →
      (destroy project argsName force answer).destroyCalls = []) ∧
    (containers.filter (fun c => c.existsFlag) = [] →
      (destroy project argsName force answer).destroyCalls = [argsName] ∧
      (destroy project argsName force answer).prompts = 0) := by
  have hne' := isEmpty_false_of_ne_nil hne
  constructor
  · intro hex hf ha
    subst hf
    subst ha
    have hex' := isEmpty_false_of_ne_nil hex
    simp [destroy, hres, hne', hex']
  · intro hex
    have hex' : (containers.filter (fun c => c.existsFlag)).isEmpty = true := by
      rw [hex]
      rfl
    simp [destroy, hres, hne', hex']

/-- C1 counterexample: with no declared containers and no requested names the
target set is empty, so no target exists; yet `project.destroy` is never invoked
(the claim's "destruction proceeds" fails for this invocation). -/
theorem destroy_empty_set_counterexample :
    resolve [] emptyProject = Except.ok [] ∧
    (destroy emptyProject [] false false).destroyCalls = [] ∧
    (destroy emptyProject [] false false).prompts = 0 :=
  ⟨rfl, rfl, rfl⟩

/-- C1 witness: on `sampleProject` (existing `web`, absent `db`) with an empty
request, resolution succeeds, the target set is non-empty, and the policy
conclusion holds. -/
theorem destroy_confirmation_policy_witness :
    (resolveContainers sampleProject (effectiveNames sampleProject []) =
      Except.ok [webContainer, dbContainer] ∧
     effectiveNames sampleProject [] ≠ []) ∧
    (([webContainer, dbContainer].filter (fun c => c.existsFlag) ≠ [] →
        false = false → false = false →
        (destroy sampleProject [] false false).destroyCalls = []) ∧
     ([webContainer, dbContainer].filter (fun c => c.existsFlag) = [] →
        (destroy sampleProject [] false false).destroyCalls = [[]] ∧
        (destroy sampleProject [] false false).prompts = 0)) :=
  ⟨⟨rfl, by decide⟩,
   destroy_confirmation_policy sampleProject [] false false
     [webContainer, dbContainer] rfl (by decide)⟩

/-- C2: an unforced destroy whose resolved target set contains at least one
existing container consults the `yesno` prompt exactly once for the whole set,
and a negative answer ends the invocation with no destructive call and no error
(the behaviour the spec names `ConfirmationDeclined`). -/
theorem destroy_unforced_prompts_once (project : Project) (argsName : List String)
    (answer : Bool) (containers : List Container)
    (hres : resolveContainers project (effectiveNames project argsName) = Except.ok containers)
    (hex : containers.filter (fun c => c.existsFlag) ≠ []) :
    (destroy project argsName false answer).prompts = 1 ∧
    (answer = false →
      (destroy project argsName false answer).destroyCalls = [] ∧
      (destroy project argsName false answer).error = none) := by
  have hcne : containers ≠ [] := by
    intro h
    apply hex
    rw [h]
    rfl
  have hne : effectiveNames project argsName ≠ [] := by
    intro h
    rw [h] at hres
    simp only [resolveContainers] at hres
    injection hres with h2
    exact hcne h2.symm
  have hne' := isEmpty_false_of_ne_nil hne
  have hex' := isEmpty_false_of_ne_nil hex
  constructor
  · simp [destroy, hres, hne', hex']
  · intro ha
    subst ha
    simp [destroy, hres, hne', hex']

/-- C2 witness: on `sampleProject` with an empty request (so targets `web`,
`db`, of which `web` exists), the unforced invocation prompts once and a
declined prompt issues no destructive call. -/
theorem destroy_unforced_prompts_once_witness :
    (resolveContainers sampleProject (effectiveNames sampleProject []) =
      Except.ok [webContainer, dbContainer] ∧
     [webContainer, dbContainer].filter (fun c => c.existsFlag) ≠ []) ∧
    ((destroy sampleProject [] false false).prompts = 1 ∧
     (false = false →
       (destroy sampleProject [] false false).destroyCalls = [] ∧
       (destroy sampleProject [] false false).error = none)) :=
  ⟨⟨rfl, by decide⟩,
   destroy_unforced_prompts_once sampleProject [] false
     [webContainer, dbContainer] rfl (by decide)⟩

/-- C3: a destroy invocation whose target set is empty (no requested names and
no declared containers) never consults the prompt, issues no destructive call
and produces no error — the outcome sequence is empty. -/
theorem destroy_empty_target_set (project : Project) (argsName : List String)
    (force answer : Bool) (h1 : argsName = []) (h2 : project.containers = []) :
    destroy project argsName force answer = ⟨0, [], none⟩ := by
  subst h1
  cases project with
  | mk cs =>
    cases h2
    rfl

/-- C3 witness: the empty project with an empty request. -/
theorem destroy_empty_target_set_witness :
    (([] : List String) = [] ∧ emptyProject.containers = []) ∧
    destroy emptyProject [] true true = ⟨0, [], none⟩ :=
  ⟨⟨rfl, rfl⟩, destroy_empty_target_set emptyProject [] true true rfl rfl⟩

/-- C4: with pairwise-distinct declared names, resolving an empty request
yields exactly the declared containers in declaration order, and resolving a
non-empty request whose names are all declared yields exactly the handles of
the requested names in the requested order. -/
theorem resolve_respects_order (project : Project) (R : List String)
    (hnodup : (project.containers.map Container.name).Nodup) (hR : R ≠ [])
    (hsub : ∀ n ∈ R, n ∈ project.containers.map Container.name) :
    resolve [] project = Except.ok project.containers ∧
    ∃ cs, resolve R project = Except.ok cs ∧ cs.map Container.name = R ∧
      ∀ c ∈ cs, c ∈ project.containers := by
  constructor
  · have heff : effectiveNames project [] = project.containers.map Container.name := rfl
    unfold resolve
    rw [heff]
    exact resolveContainers_map_name fun c hc => get_container_by_name_self hnodup hc
  · unfold resolve
    rw [effectiveNames_of_ne_nil hR]
    exact resolveContainers_of_subset R hsub

/-- C4 witness: `sampleProject` declares `web` then `db`; the request
`["db", "web"]` resolves in the requested order, not declaration order. -/
theorem resolve_respects_order_witness :
    ((sampleProject.containers.map Container.name).Nodup ∧
     (["db", "web"] : List String) ≠ [] ∧
     ∀ n ∈ (["db", "web"] : List String), n ∈ sampleProject.containers.map Container.name) ∧
    (resolve [] sampleProject = Except.ok sampleProject.containers ∧
     ∃ cs, resolve ["db", "web"] sampleProject = Except.ok cs ∧
       cs.map Container.name = ["db", "web"] ∧ ∀ c ∈ cs, c ∈ sampleProject.containers) :=
  ⟨⟨by decide, by decide, by decide⟩,
   resolve_respects_order sampleProject ["db", "web"] (by decide) (by decide) (by decide)⟩

/-- C5: if the requested list contains an undeclared name, resolution fails
with `unknownContainer` at the first undeclared name of the list, and the
destroy invocation propagates that error with zero prompts and zero
destructive calls. -/
theorem resolve_unknown_fails (project : Project) (R : List String) (n : String)
    (force answer : Bool) (hn : n ∈ R) (hbad : n ∉ project.containers.map Container.name) :
    ∃ m, R.find? (fun x => !((project.containers.map Container.name).contains x)) = some m ∧
      resolve R project = Except.error (ResolutionError.unknownContainer m) ∧
      (destroy project R force answer).error = some (ResolutionError.unknownContainer m) ∧
      (destroy project R force answer).destroyCalls = [] ∧
      (destroy project R force answer).prompts = 0 := by
  have hRne : R ≠ [] := by
    intro h
    subst h
    exact absurd hn (List.not_mem_nil n)
  have heff := @effectiveNames_of_ne_nil project R hRne
  obtain ⟨m, hm, hres⟩ := resolveContainers_first_unknown R hn hbad
  have hdes : destroy project R force answer =
      ⟨0, [], some (ResolutionError.unknownContainer m)⟩ := by
    simp [destroy, heff, hres]
  refine ⟨m, hm, ?_, ?_, ?_, ?_⟩
  · unfold resolve
    rw [heff]
    exact hres
  · rw [hdes]
  · rw [hdes]
  · rw [hdes]

/-- C5 witness: `sampleProject` declares `web` and `db`; requesting
`["web", "cache"]` fails at `cache`, with no prompt and no destructive call. -/
theorem resolve_unknown_fails_witness :
    ("cache" ∈ (["web", "cache"] : List String) ∧
     "cache" ∉ sampleProject.containers.map Container.name) ∧
    (∃ m, (["web", "cache"] : List String).find?
        (fun x => !((sampleProject.containers.map Container.name).contains x)) = some m ∧
      resolve ["web", "cache"] sampleProject =
        Except.error (ResolutionError.unknownContainer m) ∧
      (destroy sampleProject ["web", "cache"] false true).error =
        some (ResolutionError.unknownContainer m) ∧
      (destroy sampleProject ["web", "cache"] false true).destroyCalls = [] ∧
      (destroy sampleProject ["web", "cache"] false true).prompts = 0) :=
  ⟨⟨by decide, by decide⟩,
   resolve_unknown_fails sampleProject ["web", "cache"] "cache" false true
     (by decide) (by decide)⟩

/-- C6 counterexample: a domain error whose `msg` is `None` is caught by the
dispatcher but neither logged nor turned into a non-zero exit — it is silently
swallowed, refuting the claim as stated. -/
theorem dispatch_swallows_msgless_error :
    (dispatchErrors (Except.error ⟨none⟩)).loggedErrors = [] ∧
    (dispatchErrors (Except.error ⟨none⟩)).exitCode = none :=
  ⟨rfl, rfl⟩

/-- C6 (as amended): every domain error raised while dispatching whose message
is not `None` is reported via the error log and forces exit status 1; an error
whose message is `None` is caught and ignored. -/
theorem dispatch_surfaces_errors (m : String) :
    dispatchErrors (Except.error ⟨some m⟩) = ⟨[m], some 1⟩ ∧
    dispatchErrors (Except.error ⟨none⟩) = ⟨[], none⟩ :=
  ⟨rfl, rfl⟩

/-- C7: halting a target that does not exist yields the Skipped outcome
(and therefore never Failed); the halt application carries that outcome for
the target. -/
theorem halt_absent_is_skipped (targets : List Container) (c : Container)
    (hc : c ∈ targets) (habs : c.existsFlag = false) :
    haltOutcome c = Outcome.skipped "not running" ∧
    haltOutcome c ∈ haltApply targets ∧
    ∀ e, haltOutcome c ≠ Outcome.failed e := by
  have hout : haltOutcome c = Outcome.skipped "not running" := by
    unfold haltOutcome
    rw [habs]
    rfl
  refine ⟨hout, List.mem_map_of_mem haltOutcome hc, ?_⟩
  intro e h
  rw [hout] at h
  exact Outcome.noConfusion h

/-- C7 witness: `dbContainer` is absent among the sample targets; halting it is
Skipped. -/
theorem halt_absent_is_skipped_witness :
    (dbContainer ∈ [webContainer, dbContainer] ∧ dbContainer.existsFlag = false) ∧
    (haltOutcome dbContainer = Outcome.skipped "not running" ∧
     haltOutcome dbContainer ∈ haltApply [webContainer, dbContainer] ∧
     ∀ e, haltOutcome dbContainer ≠ Outcome.failed e) :=
  ⟨⟨by decide, rfl⟩,
   halt_absent_is_skipped [webContainer, dbContainer] dbContainer (by decide) rfl⟩

/-- C8: the `project` property is memoized — after the first access, a second
access returns the same project instance and leaves the instance state (and in
particular the number of `get_project()` calls) unchanged, even if a fresh
`get_project()` would now produce a different project. -/
theorem project_accessor_idempotent (fresh1 fresh2 : Project) (s : NomadState) :
    (projectAccessor fresh2 (projectAccessor fresh1 s).2).1 =
      (projectAccessor fresh1 s).1 ∧
    (projectAccessor fresh2 (projectAccessor fresh1 s).2).2 =
      (projectAccessor fresh1 s).2 := by
  cases s with
  | mk p calls =>
    cases p with
    | none => exact ⟨rfl, rfl⟩
    | some q => exact ⟨rfl, rfl⟩

/-- C9 counterexample: `main` is not a registered subcommand (it is the
top-level parser key), yet `help main` prints the general help instead of
failing with CLIError, refuting the claim as stated. -/
theorem help_main_counterexample :
    "main" ∉ registeredSubcommands ∧ help (some "main") = HelpResult.printed "main" :=
  ⟨by decide, by decide⟩

/-- C9 (as amended): the help action invoked with a name that is not a key of
the parser table (the eight registered subcommands together with the reserved
`main` key) fails with CLIError; invoked with no subcommand it prints the
general help and does not fail. -/
theorem help_unknown_command (s : String) (h : s ∉ parserKeys) :
    help (some s) = HelpResult.cliError ("No such command: " ++ s) ∧
    help none = HelpResult.printed "main" := by
  constructor
  · show (if s ∈ parserKeys then HelpResult.printed s
      else HelpResult.cliError ("No such command: " ++ s)) =
      HelpResult.cliError ("No such command: " ++ s)
    rw [if_neg h]
  · rfl

/-- C9 witness: `cache` is not a parser key, so `help cache` raises CLIError. -/
theorem help_unknown_command_witness :
    ("cache" ∉ parserKeys) ∧
    (help (some "cache") = HelpResult.cliError ("No such command: " ++ "cache") ∧
     help none = HelpResult.printed "main") :=
  ⟨by decide, help_unknown_command "cache" (by decide)⟩

/-- C10: whenever a destroy invocation issues the destructive call, the
argument passed to `project.destroy` is the user's originally requested name
list `args.name` (possibly empty, meaning all containers), never the expanded
`container_names` list used for the existence check. -/
theorem destroy_passes_requested_names (project : Project) (argsName : List String)
    (force answer : Bool) (call : List String)
    (h : call ∈ (destroy project argsName force answer).destroyCalls) :
    call = argsName := by
  simp only [destroy] at h
  split at h
  · simp at h
  · split at h
    · simp at h
      exact h
    · split at h
      · simp at h
        exact h.2
      · simp at h
        exact h.2

/-- C10 witness: on `sampleProject` a forced destroy with an empty request
expands to target names `web` and `db`, yet the destructive call receives the
empty requested list, not the expanded one. -/
theorem destroy_passes_requested_names_witness :
    (([] : List String) ∈ (destroy sampleProject [] true false).destroyCalls) ∧
    ([] : List String) = [] :=
  ⟨by decide, destroy_passes_requested_names sampleProject [] true false [] (by decide)⟩

end Nomad
